import Mathlib

/-!
# GravitationalDance: the physics kernel of `main.cpp`

A shallow embedding of the N-body simulation in `src/main.cpp`.

The C++ type `double` is embedded as a type parameter `α` carrying the arithmetic
operations the program uses (`+`, `-`, `*`, `/`, `std::sqrt`, literals).  Every
definition below is a line-by-line transcription of the source over that parameter.
Theorems about the data flow of the simulation step hold for every such `α`.

Two interpretations of `α` are used.  `F64` is IEEE 754 binary64 with rounding to nearest,
ties to even, the arithmetic of `double`: the definitions evaluated at `F64` give the values
the program computes, and the counterexamples are evaluations at `F64`.  `ℝ` is exact real
arithmetic, without rounding, overflow or NaN: the theorems stated for `ℝ` say what the
formulas of the program compute in exact arithmetic, and say so in their statements.
-/

namespace GravitationalDance

/-! ## Data model -/

/-- The square root of the scalar type, `std::sqrt` in the source. -/
class HasSqrt (α : Type) where
  /-- The function `std::sqrt`. -/
  sqrt : α → α

/-- The struct `Vector2` of `main.cpp`. -/
@[ext]
structure Vector2 (α : Type) where
  /-- Field `x`. -/
  x : α
  /-- Field `y`. -/
  y : α
deriving DecidableEq

/-- The struct `SDL_Color`: four 8-bit channels. -/
structure SDL_Color where
  /-- Red. -/
  r : Nat
  /-- Green. -/
  g : Nat
  /-- Blue. -/
  b : Nat
  /-- Alpha. -/
  a : Nat
deriving DecidableEq, Repr

/-- The struct `Planet` of `main.cpp`. -/
structure Planet (α : Type) where
  /-- Field `position`. -/
  position : Vector2 α
  /-- Field `velocity`. -/
  velocity : Vector2 α
  /-- Field `mass`. -/
  mass : α
  /-- Field `radius`. -/
  radius : Int
  /-- Field `color`. -/
  color : SDL_Color
deriving DecidableEq

section Kernel

variable {α : Type}

/-- The operator `Vector2::operator+`. -/
def Vector2.add [Add α] (u v : Vector2 α) : Vector2 α :=
  ⟨u.x + v.x, u.y + v.y⟩

/-- The operator `Vector2::operator-`. -/
def Vector2.sub [Sub α] (u v : Vector2 α) : Vector2 α :=
  ⟨u.x - v.x, u.y - v.y⟩

/-- The operator `Vector2::operator*(double scalar)`. -/
def Vector2.mul [Mul α] (u : Vector2 α) (scalar : α) : Vector2 α :=
  ⟨u.x * scalar, u.y * scalar⟩

instance [Add α] : Add (Vector2 α) := ⟨Vector2.add⟩

instance [Sub α] : Sub (Vector2 α) := ⟨Vector2.sub⟩

instance [Mul α] : HMul (Vector2 α) α (Vector2 α) := ⟨Vector2.mul⟩

/-- The method `Vector2::magnitude`. -/
def Vector2.magnitude [Add α] [Mul α] [HasSqrt α] (u : Vector2 α) : α :=
  HasSqrt.sqrt (u.x * u.x + u.y * u.y)

/-- The method `Vector2::normalize`. -/
def Vector2.normalize [Add α] [Mul α] [Div α] [HasSqrt α] (u : Vector2 α) : Vector2 α :=
  let mag := u.magnitude
  ⟨u.x / mag, u.y / mag⟩

/-- The method `Planet::updatePosition`. -/
def Planet.updatePosition [Add α] [Mul α] (planet : Planet α) (dt : α) : Planet α :=
  { planet with position := planet.position + planet.velocity * dt }

/-- The constant `G`, the gravitational constant. -/
def G [OfScientific α] : α := 6.67430e-11

/-- The function `calculateGravitationalForce`. -/
def calculateGravitationalForce [Add α] [Sub α] [Mul α] [Div α] [HasSqrt α] [OfScientific α]
    (a b : Planet α) : Vector2 α :=
  let direction := b.position - a.position
  let distance := direction.magnitude
  let force := (G * a.mass * b.mass) / (distance * distance)
  direction.normalize * force

variable [Zero α] [One α] [Add α] [Sub α] [Mul α] [Div α] [HasSqrt α] [OfScientific α]

/-- The inner loop of `main` (lines 118-123): the net force accumulated for body `i`,
whose current value is `pi`, over `j = 0 .. planets.size() - 1`. -/
def netForce (planets : List (Planet α)) (i : Nat) (pi : Planet α) : Vector2 α :=
  planets.enum.foldl
    (fun netForce jp =>
      if i ≠ jp.1 then netForce + calculateGravitationalForce pi jp.2 else netForce)
    ⟨0, 0⟩

/-- One iteration of the outer loop of `main` (lines 117-126) for index `i`: the
vector of planets is updated in place. -/
def updateVelocity (dt : α) (planets : List (Planet α)) (i : Nat) : List (Planet α) :=
  match planets[i]? with
  | none => planets
  | some pi =>
    let net : Vector2 α := netForce planets i pi
    let acceleration : Vector2 α := net * (1 / pi.mass)
    planets.set i { pi with velocity := pi.velocity + acceleration * dt }

/-- The force/velocity pass of `main` (lines 117-126): `i` runs over
`0 .. planets.size() - 1`, each iteration reading the vector as the previous
iterations left it. -/
def forceVelocityPass (dt : α) (planets : List (Planet α)) : List (Planet α) :=
  (List.range planets.length).foldl (updateVelocity dt) planets

/-- The position pass of `main` (lines 128-130). -/
def positionPass (dt : α) (planets : List (Planet α)) : List (Planet α) :=
  planets.map (fun planet => planet.updatePosition dt)

/-- One simulation step of `main` (lines 116-130): the force/velocity pass followed by
the position pass. -/
def simulationStep (dt : α) (planets : List (Planet α)) : List (Planet α) :=
  positionPass dt (forceVelocityPass dt planets)

/-- The net force on body `i`, whose value is `pi`, in the words of the specification:
the vector sum, in index order, of `calculateGravitationalForce pi body_j` over every
`j ≠ i`. -/
def netForceSpec (planets : List (Planet α)) (i : Nat) (pi : Planet α) : Vector2 α :=
  ((planets.enum.filter (fun jp => jp.1 ≠ i)).map
    (fun jp => calculateGravitationalForce pi jp.2)).foldl (· + ·) ⟨0, 0⟩

/-- The velocity the specification gives body `i`, whose value is `pi`, after one step
taken from the collection `planets`. -/
def velocitySpec (dt : α) (planets : List (Planet α)) (i : Nat) (pi : Planet α) : Vector2 α :=
  pi.velocity + (netForceSpec planets i pi * (1 / pi.mass)) * dt

/-- Body `i`, whose value is `pi`, with the velocity the specification gives it. -/
def withVelocitySpec (dt : α) (planets : List (Planet α)) (i : Nat) (pi : Planet α) : Planet α :=
  { pi with velocity := velocitySpec dt planets i pi }

/-- The total linear momentum of a collection in the words of the claim: the vector sum
over all bodies of the velocity scaled by the mass. -/
def totalMomentum (planets : List (Planet α)) : Vector2 α :=
  (planets.map (fun p => p.velocity * p.mass)).foldl (· + ·) ⟨0, 0⟩

/-! ## The tick loop -/

/-- What `main` looks at in an `SDL_Event`: whether its type is `SDL_QUIT`. -/
inductive SDL_EventType where
  | SDL_QUIT
  | other
deriving DecidableEq, Repr

/-- The variables of `main` that the tick loop changes. -/
structure LoopState (α : Type) where
  /-- The vector `planets`. -/
  planets : List (Planet α)
  /-- The flag `running`. -/
  running : Bool

/-- The event loop of one tick (lines 106-110): `events` is the queue that
`SDL_PollEvent` drains. -/
def pollEvents (running : Bool) (events : List SDL_EventType) : Bool :=
  events.foldl (fun running event => if event = SDL_EventType.SDL_QUIT then false else running)
    running

/-- The body of the `while (running)` loop (lines 106-138) on the variables of
`LoopState`: the poll, then the simulation step. Rendering changes neither. -/
def tick (dt : α) (events : List SDL_EventType) (s : LoopState α) : LoopState α :=
  let running := pollEvents s.running events
  { planets := simulationStep dt s.planets, running := running }

/-- The loop `while (running)` of `main` (lines 105-139), driven by the event queue of
each tick. The loop has exited when the result has `running = false`; when the
queues run out before that, the state reached so far is returned. -/
def mainLoop (dt : α) : List (List SDL_EventType) → LoopState α → LoopState α
  | [], s => s
  | events :: rest, s => if s.running then mainLoop dt rest (tick dt events s) else s

end Kernel

section Reference

variable {α : Type} [Zero α] [NatCast α] [Neg α] [OfScientific α]

/-- The first planet of `main` (line 96), the Sun. -/
def sun : Planet α :=
  { position := ⟨400, 400⟩, velocity := ⟨0, 0⟩, mass := 1.989e30, radius := 15,
    color := ⟨255, 255, 0, 0⟩ }

/-- The second planet of `main` (line 97), the Earth. -/
def earth : Planet α :=
  { position := ⟨600, 400⟩, velocity := ⟨0, -30000⟩, mass := 5.972e24, radius := 5,
    color := ⟨0, 0, 255, 0⟩ }

/-- The third planet of `main` (line 98), Mars. -/
def mars : Planet α :=
  { position := ⟨700, 400⟩, velocity := ⟨0, -24000⟩, mass := 6.39e23, radius := 4,
    color := ⟨255, 0, 0, 0⟩ }

/-- The vector `planets` that `main` starts from (lines 95-99). -/
def initialPlanets : List (Planet α) := [sun, earth, mars]

/-- The Sun after the first tick of `main` (`dt = 1.0`), in exact arithmetic. -/
def sunAfterTick : Planet α :=
  { (sun : Planet α) with position := ⟨10438605600, 400⟩, velocity := ⟨10438605200, 0⟩ }

/-- The Earth after the first tick of `main` (`dt = 1.0`), in exact arithmetic. -/
def earthAfterTick : Planet α :=
  { (earth : Planet α) with
      position := ⟨-3318791410121700, -29600⟩, velocity := ⟨-3318791410122300, -30000⟩ }

/-- Mars after the first tick of `main` (`dt = 1.0`), in exact arithmetic. -/
def marsAfterTick : Planet α :=
  { (mars : Planet α) with
      position := ⟨-1475060158918900, -23600⟩, velocity := ⟨-1475060158919600, -24000⟩ }

end Reference

/-! ## The arithmetic of `double`: IEEE 754 binary64

`F64` models the type `double` of the program: IEEE 754 binary64 values by their bit
fields, with `+`, `-`, `*`, `/` and `std::sqrt` correctly rounded to nearest, ties to even,
overflow to infinity, gradual underflow, signed zeros and NaN. Decimal literals are rounded
to the nearest double, as a C++ compiler does. -/

/-- An IEEE 754 binary64 value by its three bit fields: the sign bit, the 11-bit biased
exponent and the 52-bit fraction. -/
structure F64 where
  /-- The sign bit: `true` for negative. -/
  sign : Bool
  /-- The biased exponent field; `0` for zeros and subnormals, `2047` for infinities and
  NaN. -/
  exponent : Fin 2048
  /-- The fraction field. -/
  fraction : Fin 4503599627370496
deriving DecidableEq, Repr

namespace F64

/-- The quiet NaN that the operations return. -/
def nan : F64 := ⟨false, 2047, 2251799813685248⟩

/-- The infinity of sign `s`. -/
def inf (s : Bool) : F64 := ⟨s, 2047, 0⟩

/-- The zero of sign `s`. -/
def zero (s : Bool) : F64 := ⟨s, 0, 0⟩

/-- Whether the value is a NaN, as `std::isnan`. -/
def isNaN (x : F64) : Bool := x.exponent.val == 2047 && x.fraction.val != 0

/-- Whether the value is an infinity, as `std::isinf`. -/
def isInf (x : F64) : Bool := x.exponent.val == 2047 && x.fraction.val == 0

/-- Whether the value is `+0` or `-0`. -/
def isZero (x : F64) : Bool := x.exponent.val == 0 && x.fraction.val == 0

/-- The integer significand of a finite value. -/
def mant (x : F64) : Nat :=
  if x.exponent.val = 0 then x.fraction.val else 4503599627370496 + x.fraction.val

/-- The exponent of a finite value: its magnitude is `mant * 2 ^ exp`. -/
def exp (x : F64) : Int :=
  if x.exponent.val = 0 then -1074 else (x.exponent.val : Int) - 1075

/-- The number of binary digits of `n`, with `fuel` bounding the count. -/
def bitLength : Nat → Nat → Nat
  | 0, _ => 0
  | fuel + 1, n => if n = 0 then 0 else bitLength fuel (n / 2) + 1

/-- The finite value of sign `s` and magnitude `m * 2 ^ e`, for `m < 2 ^ 53` and either
`2 ^ 52 ≤ m` or `e = -1074`. -/
def pack (s : Bool) (m : Nat) (e : Int) : F64 :=
  if m < 4503599627370496 then
    ⟨s, 0, ⟨m % 4503599627370496, Nat.mod_lt _ (by decide)⟩⟩
  else
    ⟨s, ⟨(e + 1075).toNat % 2048, Nat.mod_lt _ (by decide)⟩,
      ⟨(m - 4503599627370496) % 4503599627370496, Nat.mod_lt _ (by decide)⟩⟩

/-- Rounding to nearest, ties to even: the double nearest to `(-1)^s * (m + d) * 2 ^ e`,
where `d = 0` when `sticky` is false and `0 < d < 1` when it is true (then `m` has more
than 53 binary digits). -/
def round (s : Bool) (m : Nat) (e : Int) (sticky : Bool) : F64 :=
  if m = 0 then zero s
  else
    let len : Int := (bitLength 4096 m : Int)
    let e1 : Int := max (e + len - 53) (-1074)
    let n : Nat := m * 2 ^ (e - e1).toNat
    let sh : Nat := (e1 - e).toNat
    let q : Nat := n / 2 ^ sh
    let r : Nat := n % 2 ^ sh
    let half : Nat := 2 ^ (sh - 1)
    let up : Bool := decide (half < r) || (decide (r = half) && (sticky || q % 2 == 1))
    let q1 : Nat := if up then q + 1 else q
    let q2 : Nat := if q1 = 9007199254740992 then 4503599627370496 else q1
    let e2 : Int := if q1 = 9007199254740992 then e1 + 1 else e1
    if 971 < e2 then inf s else pack s q2 e2

/-- The double nearest to `(-1)^s * (num / den) * 2 ^ e`. -/
def roundRat (s : Bool) (num den : Nat) (e : Int) : F64 :=
  let k : Nat := bitLength 4096 den + 64
  let n : Nat := num * 2 ^ k
  round s (n / den) (e - k) (n % den != 0)

/-- The unary minus of `double`. -/
def neg (x : F64) : F64 := { x with sign := !x.sign }

/-- The operator `+` of `double`. -/
def add (x y : F64) : F64 :=
  if x.isNaN || y.isNaN then nan
  else if x.isInf then (if y.isInf && x.sign != y.sign then nan else x)
  else if y.isInf then y
  else
    let e : Int := min x.exp y.exp
    let a : Nat := x.mant * 2 ^ (x.exp - e).toNat
    let b : Nat := y.mant * 2 ^ (y.exp - e).toNat
    if x.sign = y.sign then round x.sign (a + b) e false
    else if b < a then round x.sign (a - b) e false
    else if a < b then round y.sign (b - a) e false
    else zero false

/-- The operator `-` of `double`. -/
def sub (x y : F64) : F64 := add x (neg y)

/-- The operator `*` of `double`. -/
def mul (x y : F64) : F64 :=
  if x.isNaN || y.isNaN then nan
  else if x.isInf || y.isInf then
    (if x.isZero || y.isZero then nan else inf (x.sign != y.sign))
  else round (x.sign != y.sign) (x.mant * y.mant) (x.exp + y.exp) false

/-- The operator `/` of `double`. -/
def div (x y : F64) : F64 :=
  if x.isNaN || y.isNaN then nan
  else if x.isInf then (if y.isInf then nan else inf (x.sign != y.sign))
  else if y.isInf then zero (x.sign != y.sign)
  else if y.isZero then (if x.isZero then nan else inf (x.sign != y.sign))
  else roundRat (x.sign != y.sign) x.mant y.mant (x.exp - y.exp)

/-- Newton iteration for the integer square root of `n`, from a start `x` above it. -/
def isqrtLoop : Nat → Nat → Nat → Nat
  | 0, _, x => x
  | fuel + 1, n, x =>
    let y := (x + n / x) / 2
    if y < x then isqrtLoop fuel n y else x

/-- The integer square root: the largest `r` with `r * r ≤ n`. -/
def isqrt (n : Nat) : Nat :=
  if n = 0 then 0 else isqrtLoop 4096 n (2 ^ (bitLength 4096 n / 2 + 1))

/-- The function `std::sqrt` on `double`. -/
def sqrt (x : F64) : F64 :=
  if x.isNaN then nan
  else if x.isZero then x
  else if x.sign then nan
  else if x.isInf then x
  else
    let k : Nat := if x.exp % 2 = 0 then 110 else 111
    let n : Nat := x.mant * 2 ^ k
    let r : Nat := isqrt n
    round false r ((x.exp - k) / 2) (r * r != n)

/-- The double of a decimal literal `mantissa * 10 ^ (± decimalExponent)`. -/
def ofScientific (mantissa : Nat) (exponentSign : Bool) (decimalExponent : Nat) : F64 :=
  if exponentSign then roundRat false mantissa (10 ^ decimalExponent) 0
  else round false (mantissa * 10 ^ decimalExponent) 0 false

/-- The operator `<` of `double`: false when a NaN is involved, and `-0 < +0` is false. -/
def lt (x y : F64) : Bool :=
  if x.isNaN || y.isNaN then false
  else if x.isZero && y.isZero then false
  else if x.sign != y.sign then x.sign
  else
    let below : Bool :=
      decide (x.exponent.val < y.exponent.val) ||
        (decide (x.exponent.val = y.exponent.val) && decide (x.fraction.val < y.fraction.val))
    let above : Bool :=
      decide (y.exponent.val < x.exponent.val) ||
        (decide (x.exponent.val = y.exponent.val) && decide (y.fraction.val < x.fraction.val))
    if x.sign then above else below

instance : Zero F64 := ⟨zero false⟩

instance : One F64 := ⟨⟨false, 1023, 0⟩⟩

instance : Add F64 := ⟨add⟩

instance : Sub F64 := ⟨sub⟩

instance : Mul F64 := ⟨mul⟩

instance : Div F64 := ⟨div⟩

instance : Neg F64 := ⟨neg⟩

instance : NatCast F64 := ⟨fun n => round false n 0 false⟩

instance : OfScientific F64 := ⟨ofScientific⟩

instance : LT F64 := ⟨fun x y => lt x y = true⟩

instance (x y : F64) : Decidable (x < y) := inferInstanceAs (Decidable (lt x y = true))

end F64

/-- The arithmetic of the program: `std::sqrt` on `double`. -/
instance : HasSqrt F64 := ⟨F64.sqrt⟩

/-- A body at rest at `(x, y)` with the given mass; radius and colour play no part in the
physics. -/
def bodyAt {α : Type} [Zero α] (x y mass : α) : Planet α :=
  { position := ⟨x, y⟩, velocity := ⟨0, 0⟩, mass := mass, radius := 1,
    color := ⟨255, 255, 255, 0⟩ }

/-- Exact real arithmetic, the idealisation of `double` without rounding, overflow or NaN:
`std::sqrt` is the real square root. It is used only by statements that say so. -/
noncomputable instance : HasSqrt ℝ := ⟨Real.sqrt⟩

/-! ## The simulation step: data flow -/

section Flow

set_option linter.unusedSectionVars false

variable {α : Type} [Zero α] [One α] [Add α] [Sub α] [Mul α] [Div α] [HasSqrt α] [OfScientific α]

theorem calculateGravitationalForce_congr {a b c d : Planet α}
    (hp : a.position = c.position) (hm : a.mass = c.mass)
    (hq : b.position = d.position) (hn : b.mass = d.mass) :
    calculateGravitationalForce a b = calculateGravitationalForce c d := by
  simp only [calculateGravitationalForce, hp, hm, hq, hn]

theorem foldl_force_congr (i : Nat) (p q : Planet α) (hp : p.position = q.position)
    (hm : p.mass = q.mass) :
    ∀ (xs ys : List (Planet α)) (n : Nat) (acc : Vector2 α),
      xs.map (fun r => (r.position, r.mass)) = ys.map (fun r => (r.position, r.mass)) →
      (xs.enumFrom n).foldl
          (fun net jp => if i ≠ jp.1 then net + calculateGravitationalForce p jp.2 else net) acc
        = (ys.enumFrom n).foldl
          (fun net jp => if i ≠ jp.1 then net + calculateGravitationalForce q jp.2 else net) acc
  | [], [], _, _, _ => rfl
  | [], _ :: _, _, _, h => by simp at h
  | _ :: _, [], _, _, h => by simp at h
  | x :: xs, y :: ys, n, acc, h => by
    simp only [List.map_cons, List.cons.injEq, Prod.mk.injEq] at h
    simp only [List.enumFrom_cons, List.foldl_cons]
    rw [calculateGravitationalForce_congr hp hm h.1.1 h.1.2]
    exact foldl_force_congr i p q hp hm xs ys (n + 1) _ h.2

theorem netForce_congr {xs ys : List (Planet α)} (i : Nat) {p q : Planet α}
    (h : xs.map (fun r => (r.position, r.mass)) = ys.map (fun r => (r.position, r.mass)))
    (hp : p.position = q.position) (hm : p.mass = q.mass) :
    netForce xs i p = netForce ys i q :=
  foldl_force_congr i p q hp hm xs ys 0 _ h

theorem foldl_force_eq_spec (i : Nat) (p : Planet α) :
    ∀ (l : List (Nat × Planet α)) (acc : Vector2 α),
      l.foldl (fun net jp => if i ≠ jp.1 then net + calculateGravitationalForce p jp.2 else net)
          acc
        = ((l.filter (fun jp => jp.1 ≠ i)).map
            (fun jp => calculateGravitationalForce p jp.2)).foldl (· + ·) acc
  | [], _ => rfl
  | jp :: l, acc => by
    have ih := foldl_force_eq_spec i p l
    by_cases h : i = jp.1
    · have h2 : jp.1 = i := h.symm
      simp only [List.foldl_cons, List.filter_cons, h2, ne_eq, not_true_eq_false, decide_False,
        if_false, Bool.false_eq_true]
      exact ih acc
    · have h2 : ¬ jp.1 = i := fun e => h e.symm
      simp only [List.foldl_cons, List.filter_cons, h, h2, ne_eq, not_false_eq_true, decide_True,
        if_true, List.map_cons]
      exact ih _

theorem netForce_eq_spec (planets : List (Planet α)) (i : Nat) (p : Planet α) :
    netForce planets i p = netForceSpec planets i p :=
  foldl_force_eq_spec i p _ _

theorem map_phys_mapIdx (planets : List (Planet α)) (f : Nat → Planet α → Planet α)
    (hp : ∀ i p, (f i p).position = p.position) (hm : ∀ i p, (f i p).mass = p.mass) :
    (planets.mapIdx f).map (fun r => (r.position, r.mass))
      = planets.map (fun r => (r.position, r.mass)) := by
  apply List.ext_getElem
  · simp
  · intro j h1 h2
    simp [hp, hm]

theorem foldl_updateVelocity (dt : α) (planets : List (Planet α)) :
    ∀ k, k ≤ planets.length →
      (List.range k).foldl (updateVelocity dt) planets
        = planets.mapIdx (fun i p => if i < k then withVelocitySpec dt planets i p else p) := by
  intro k
  induction k with
  | zero =>
    intro _
    apply List.ext_getElem
    · simp
    · intro j h1 h2
      simp
  | succ k ih =>
    intro hk
    have hk2 : k < planets.length := hk
    rw [List.range_succ, List.foldl_append, ih (Nat.le_of_lt hk2)]
    simp only [List.foldl_cons, List.foldl_nil]
    have hget : (planets.mapIdx
        (fun i p => if i < k then withVelocitySpec dt planets i p else p))[k]?
          = some planets[k] := by
      simp [List.getElem?_eq_getElem hk2]
    have hforce : netForce (planets.mapIdx
        (fun i p => if i < k then withVelocitySpec dt planets i p else p)) k planets[k]
          = netForceSpec planets k planets[k] := by
      rw [← netForce_eq_spec]
      apply netForce_congr k _ rfl rfl
      apply map_phys_mapIdx
      · intro i p; split <;> rfl
      · intro i p; split <;> rfl
    unfold updateVelocity
    rw [hget]
    simp only [hforce]
    apply List.ext_getElem
    · simp
    · intro j h1 h2
      simp only [List.getElem_set, List.getElem_mapIdx]
      by_cases hjk : k = j
      · subst hjk
        simp [withVelocitySpec, velocitySpec]
      · have : j < k + 1 ↔ j < k := by omega
        simp [hjk, this]

theorem forceVelocityPass_eq (dt : α) (planets : List (Planet α)) :
    forceVelocityPass dt planets = planets.mapIdx (withVelocitySpec dt planets) := by
  unfold forceVelocityPass
  rw [foldl_updateVelocity dt planets planets.length (Nat.le_refl _)]
  apply List.ext_getElem
  · simp
  · intro j h1 h2
    have : j < planets.length := by simpa using h1
    simp [this]

theorem simulationStep_eq (dt : α) (planets : List (Planet α)) :
    simulationStep dt planets
      = planets.mapIdx (fun i p => (withVelocitySpec dt planets i p).updatePosition dt) := by
  unfold simulationStep positionPass
  rw [forceVelocityPass_eq]
  apply List.ext_getElem
  · simp
  · intro j h1 h2
    simp

theorem getElem?_simulationStep (dt : α) (planets : List (Planet α)) (i : Nat) :
    (simulationStep dt planets)[i]?
      = planets[i]?.map (fun p => (withVelocitySpec dt planets i p).updatePosition dt) := by
  rw [simulationStep_eq, List.getElem?_mapIdx]

/-- C1: after one simulation step the velocity of body `i` is its pre-step velocity plus
`(net * (1 / mass_i)) * dt`, where `net` is the sum, in index order and starting from the
zero vector, of `calculateGravitationalForce body_i body_j` over all `j ≠ i`, every term
being evaluated on the pre-step collection: neither a position nor a velocity updated
during the tick enters it, and the pair `j = i` is left out. -/
theorem simulationStep_velocity (dt : α) (planets : List (Planet α)) (i : Nat) (pi : Planet α)
    (hi : planets[i]? = some pi) :
    ((simulationStep dt planets)[i]?).map Planet.velocity
      = some (pi.velocity
          + (((planets.enum.filter (fun jp => jp.1 ≠ i)).map
                (fun jp => calculateGravitationalForce pi jp.2)).foldl (· + ·) ⟨0, 0⟩
              * (1 / pi.mass)) * dt) := by
  rw [getElem?_simulationStep, hi]
  rfl

/-- C2: after one simulation step the position of body `i` is its pre-step position plus
its new, post-step velocity times `dt`. -/
theorem simulationStep_position (dt : α) (planets : List (Planet α)) (i : Nat)
    (pre post : Planet α) (hpre : planets[i]? = some pre)
    (hpost : (simulationStep dt planets)[i]? = some post) :
    post.position = pre.position + post.velocity * dt := by
  rw [getElem?_simulationStep, hpre] at hpost
  simp only [Option.map_some'] at hpost
  cases hpost
  rfl

/-- C8: one simulation step keeps the number of bodies and their order, and the mass,
radius and colour of every body; only `velocity` and `position` change. -/
theorem simulationStep_frame (dt : α) (planets : List (Planet α)) :
    (simulationStep dt planets).length = planets.length ∧
    (simulationStep dt planets).map (fun p => (p.mass, p.radius, p.color))
      = planets.map (fun p => (p.mass, p.radius, p.color)) := by
  rw [simulationStep_eq]
  refine ⟨by simp, ?_⟩
  apply List.ext_getElem
  · simp
  · intro j h1 h2
    simp [withVelocitySpec, Planet.updatePosition]

end Flow

/-! ## The force model over exact real arithmetic -/

section RealForce

@[simp]
theorem Vector2.add_x {α : Type} [Add α] (u v : Vector2 α) : (u + v).x = u.x + v.x := rfl

@[simp]
theorem Vector2.add_y {α : Type} [Add α] (u v : Vector2 α) : (u + v).y = u.y + v.y := rfl

@[simp]
theorem Vector2.sub_x {α : Type} [Sub α] (u v : Vector2 α) : (u - v).x = u.x - v.x := rfl

@[simp]
theorem Vector2.sub_y {α : Type} [Sub α] (u v : Vector2 α) : (u - v).y = u.y - v.y := rfl

@[simp]
theorem Vector2.mul_x {α : Type} [Mul α] (u : Vector2 α) (k : α) : (u * k).x = u.x * k := rfl

@[simp]
theorem Vector2.mul_y {α : Type} [Mul α] (u : Vector2 α) (k : α) : (u * k).y = u.y * k := rfl

theorem Vector2.magnitude_def (u : Vector2 ℝ) :
    u.magnitude = Real.sqrt (u.x * u.x + u.y * u.y) := rfl

theorem Vector2.magnitude_nonneg (u : Vector2 ℝ) : 0 ≤ u.magnitude :=
  Real.sqrt_nonneg _

theorem Vector2.magnitude_mul_self (u : Vector2 ℝ) :
    u.magnitude * u.magnitude = u.x * u.x + u.y * u.y :=
  Real.mul_self_sqrt (add_nonneg (mul_self_nonneg _) (mul_self_nonneg _))

theorem Vector2.magnitude_pos_of_sub_ne {p q : Vector2 ℝ} (h : p ≠ q) :
    0 < (q - p).magnitude := by
  rw [Vector2.magnitude_def]
  apply Real.sqrt_pos.mpr
  have hne : q.x - p.x ≠ 0 ∨ q.y - p.y ≠ 0 := by
    by_contra hc
    push_neg at hc
    apply h
    ext
    · linarith [hc.1]
    · linarith [hc.2]
  simp only [Vector2.sub_x, Vector2.sub_y]
  rcases hne with hx | hy
  · have := mul_self_pos.mpr hx
    have := mul_self_nonneg (q.y - p.y)
    linarith
  · have := mul_self_pos.mpr hy
    have := mul_self_nonneg (q.x - p.x)
    linarith

theorem Vector2.magnitude_mul (u : Vector2 ℝ) (k : ℝ) :
    (u * k).magnitude = u.magnitude * |k| := by
  simp only [Vector2.magnitude_def, Vector2.mul_x, Vector2.mul_y]
  have e : u.x * k * (u.x * k) + u.y * k * (u.y * k) = (u.x * u.x + u.y * u.y) * (k * k) := by
    ring
  rw [e, Real.sqrt_mul (add_nonneg (mul_self_nonneg _) (mul_self_nonneg _)),
    Real.sqrt_mul_self_eq_abs]

theorem Vector2.magnitude_normalize (u : Vector2 ℝ) (h : 0 < u.magnitude) :
    u.normalize.magnitude = 1 := by
  have hm := Vector2.magnitude_mul_self u
  have hne : u.magnitude ≠ 0 := ne_of_gt h
  simp only [Vector2.normalize]
  rw [Vector2.magnitude_def]
  have e : u.x / u.magnitude * (u.x / u.magnitude) + u.y / u.magnitude * (u.y / u.magnitude)
      = 1 := by
    field_simp
    linarith [hm]
  rw [e, Real.sqrt_one]

theorem G_pos : 0 < (G : ℝ) := by
  unfold G
  norm_num

theorem calculateGravitationalForce_def (a b : Planet ℝ) :
    calculateGravitationalForce a b
      = (b.position - a.position).normalize
          * (G * a.mass * b.mass
              / ((b.position - a.position).magnitude * (b.position - a.position).magnitude)) :=
  rfl

theorem magnitude_calculateGravitationalForce (a b : Planet ℝ)
    (hpos : a.position ≠ b.position) :
    (calculateGravitationalForce a b).magnitude
      = |G * a.mass * b.mass| / (b.position - a.position).magnitude ^ 2 := by
  have hd := Vector2.magnitude_pos_of_sub_ne hpos
  rw [calculateGravitationalForce_def, Vector2.magnitude_mul,
    Vector2.magnitude_normalize _ hd, one_mul, abs_div, ← pow_two,
    abs_of_pos (pow_pos hd 2)]

theorem sun_position_ne_earth : (sun : Planet ℝ).position ≠ earth.position := by
  intro h
  have hx := congrArg Vector2.x h
  simp only [sun, earth] at hx
  norm_num at hx

theorem Vector2.magnitude_sub_comm (p q : Vector2 ℝ) :
    (p - q).magnitude = (q - p).magnitude := by
  simp only [Vector2.magnitude_def, Vector2.sub_x, Vector2.sub_y]
  congr 1
  ring

end RealForce

/-! ## Conservation of linear momentum over exact real arithmetic -/

section Momentum

theorem sum_map_mapIdx {β γ : Type} (l : List β) (f : ℕ → β → γ) (g : γ → ℝ) :
    ((l.mapIdx f).map g).sum = ∑ i : Fin l.length, g (f i (l.get i)) := by
  rw [List.mapIdx_eq_ofFn, List.map_ofFn, List.sum_ofFn]
  rfl

theorem sum_map_filter_ite {β : Type} (p : β → Bool) (g : β → ℝ) :
    ∀ l : List β, ((l.filter p).map g).sum = (l.map (fun a => if p a then g a else 0)).sum
  | [] => rfl
  | a :: l => by
    by_cases h : p a <;> simp [List.filter_cons, h, sum_map_filter_ite p g l]

theorem foldl_add_comp (c : Vector2 ℝ → ℝ) (hadd : ∀ u v, c (u + v) = c u + c v) :
    ∀ (l : List (Vector2 ℝ)) (acc : Vector2 ℝ),
      c (l.foldl (· + ·) acc) = c acc + (l.map c).sum
  | [], acc => by simp
  | u :: l, acc => by
    simp only [List.foldl_cons, List.map_cons, List.sum_cons]
    rw [foldl_add_comp c hadd l, hadd]
    ring

theorem sum_pairs_antisymm {n : ℕ} (f : Fin n → Fin n → ℝ) (h : ∀ i j, f i j = -f j i) :
    ∑ i : Fin n, ∑ j : Fin n, (if (j : ℕ) ≠ (i : ℕ) then f i j else 0) = 0 := by
  have hswap : ∑ i : Fin n, ∑ j : Fin n, (if (j : ℕ) ≠ (i : ℕ) then f i j else 0)
      = -∑ i : Fin n, ∑ j : Fin n, (if (j : ℕ) ≠ (i : ℕ) then f i j else 0) := by
    conv_lhs => rw [Finset.sum_comm]
    rw [← Finset.sum_neg_distrib]
    refine Finset.sum_congr rfl (fun i _ => ?_)
    rw [← Finset.sum_neg_distrib]
    refine Finset.sum_congr rfl (fun j _ => ?_)
    by_cases hij : (j : ℕ) = (i : ℕ)
    · simp [hij]
    · have hji : ¬ (i : ℕ) = (j : ℕ) := fun e => hij e.symm
      simp only [ne_eq, hij, hji, not_false_eq_true, if_true]
      exact h j i
  linarith

theorem calculateGravitationalForce_neg (a b : Planet ℝ) :
    (calculateGravitationalForce a b).x = -(calculateGravitationalForce b a).x ∧
    (calculateGravitationalForce a b).y = -(calculateGravitationalForce b a).y := by
  have hs := Vector2.magnitude_sub_comm a.position b.position
  constructor
  · simp only [calculateGravitationalForce_def, Vector2.normalize, Vector2.mul_x, hs,
      Vector2.sub_x]
    ring
  · simp only [calculateGravitationalForce_def, Vector2.normalize, Vector2.mul_y, hs,
      Vector2.sub_y]
    ring

theorem comp_netForceSpec (c : Vector2 ℝ → ℝ) (hadd : ∀ u v, c (u + v) = c u + c v)
    (hzero : c ⟨0, 0⟩ = 0) (planets : List (Planet ℝ)) (i : ℕ) (p : Planet ℝ) :
    c (netForceSpec planets i p)
      = ∑ j : Fin planets.length,
          (if (j : ℕ) ≠ i then c (calculateGravitationalForce p (planets.get j)) else 0) := by
  unfold netForceSpec
  rw [foldl_add_comp c hadd, hzero, zero_add, List.map_map, sum_map_filter_ite]
  have e : planets.enum.map
        (fun a => if (decide (a.1 ≠ i)) = true
          then (c ∘ fun jp : ℕ × Planet ℝ => calculateGravitationalForce p jp.2) a else 0)
      = (planets.mapIdx (fun j q => (j, q))).map
        (fun a => if a.1 ≠ i then c (calculateGravitationalForce p a.2) else 0) := by
    rw [List.mapIdx_eq_enum_map]
    simp [Function.uncurry]
  rw [e, sum_map_mapIdx]

theorem comp_totalMomentum (c : Vector2 ℝ → ℝ) (hadd : ∀ u v, c (u + v) = c u + c v)
    (hzero : c ⟨0, 0⟩ = 0) (planets : List (Planet ℝ)) :
    c (totalMomentum planets)
      = ((planets.mapIdx (fun _ q => q)).map (fun q => c (q.velocity * q.mass))).sum := by
  unfold totalMomentum
  rw [foldl_add_comp c hadd, hzero, zero_add, List.map_map]
  congr 1
  apply List.ext_getElem
  · simp
  · intro j h1 h2
    simp

theorem comp_totalMomentum_simulationStep (c : Vector2 ℝ → ℝ)
    (hadd : ∀ u v, c (u + v) = c u + c v) (hmul : ∀ u (k : ℝ), c (u * k) = c u * k)
    (hzero : c ⟨0, 0⟩ = 0)
    (hanti : ∀ a b : Planet ℝ,
      c (calculateGravitationalForce a b) = -c (calculateGravitationalForce b a))
    (dt : ℝ) (planets : List (Planet ℝ)) (hmass : ∀ p ∈ planets, p.mass ≠ 0) :
    c (totalMomentum (simulationStep dt planets)) = c (totalMomentum planets) := by
  rw [comp_totalMomentum c hadd hzero planets, sum_map_mapIdx]
  unfold totalMomentum
  rw [foldl_add_comp c hadd, hzero, zero_add, List.map_map, simulationStep_eq, sum_map_mapIdx]
  have hterm : ∀ i : Fin planets.length,
      (c ∘ fun p : Planet ℝ => p.velocity * p.mass)
          ((withVelocitySpec dt planets i (planets.get i)).updatePosition dt)
        = c ((planets.get i).velocity * (planets.get i).mass)
          + dt * ∑ j : Fin planets.length, (if (j : ℕ) ≠ (i : ℕ)
              then c (calculateGravitationalForce (planets.get i) (planets.get j)) else 0) := by
    intro i
    have hm : (planets.get i).mass ≠ 0 := hmass _ (List.get_mem planets i.1 i.2)
    have hm2 : planets[(i : ℕ)].mass ≠ 0 := hm
    simp only [Function.comp, withVelocitySpec, Planet.updatePosition, velocitySpec, hmul, hadd]
    rw [comp_netForceSpec c hadd hzero]
    field_simp
    ring
  rw [Finset.sum_congr rfl (fun i _ => hterm i), Finset.sum_add_distrib, ← Finset.mul_sum,
    sum_pairs_antisymm _ (fun i j => hanti _ _)]
  simp

/-- C10: for bodies of non-zero mass at pairwise distinct positions, over exact real
arithmetic, one simulation step preserves the total linear momentum, the sum over all
bodies of velocity times mass: the forces computed for `(i, j)` and `(j, i)` cancel. -/
theorem simulationStep_totalMomentum (dt : ℝ) (planets : List (Planet ℝ))
    (hmass : ∀ p ∈ planets, p.mass ≠ 0)
    (_hpos : planets.Pairwise (fun p q => p.position ≠ q.position)) :
    totalMomentum (simulationStep dt planets) = totalMomentum planets := by
  ext
  · exact comp_totalMomentum_simulationStep Vector2.x (fun _ _ => rfl) (fun _ _ => rfl) rfl
      (fun a b => (calculateGravitationalForce_neg a b).1) dt planets hmass
  · exact comp_totalMomentum_simulationStep Vector2.y (fun _ _ => rfl) (fun _ _ => rfl) rfl
      (fun a b => (calculateGravitationalForce_neg a b).2) dt planets hmass

end Momentum

/-! ## The tick loop and the exit signal -/

section Loop

set_option linter.unusedSectionVars false

variable {α : Type} [Zero α] [One α] [Add α] [Sub α] [Mul α] [Div α] [HasSqrt α] [OfScientific α]

theorem pollEvents_false : ∀ events : List SDL_EventType, pollEvents false events = false
  | [] => rfl
  | e :: events => by
    have ih := pollEvents_false events
    unfold pollEvents at ih ⊢
    simp only [List.foldl_cons, ite_self]
    exact ih

theorem pollEvents_of_mem : ∀ (events : List SDL_EventType) (running : Bool),
    SDL_EventType.SDL_QUIT ∈ events → pollEvents running events = false
  | [], _, h => by simp at h
  | e :: events, running, h => by
    by_cases he : e = SDL_EventType.SDL_QUIT
    · have := pollEvents_false events
      unfold pollEvents at this ⊢
      simp only [List.foldl_cons, he, if_true]
      exact this
    · have hmem : SDL_EventType.SDL_QUIT ∈ events := by
        rcases List.mem_cons.mp h with h1 | h1
        · exact absurd h1.symm he
        · exact h1
      have := pollEvents_of_mem events running hmem
      unfold pollEvents at this ⊢
      simp only [List.foldl_cons, he, if_false]
      exact this

theorem pollEvents_of_not_mem : ∀ (events : List SDL_EventType) (running : Bool),
    SDL_EventType.SDL_QUIT ∉ events → pollEvents running events = running
  | [], _, _ => rfl
  | e :: events, running, h => by
    have he : ¬ e = SDL_EventType.SDL_QUIT := fun e1 => h (by simp [e1])
    have hmem : SDL_EventType.SDL_QUIT ∉ events := fun h1 => h (List.mem_cons_of_mem _ h1)
    have := pollEvents_of_not_mem events running hmem
    unfold pollEvents at this ⊢
    simp only [List.foldl_cons, he, if_false]
    exact this

theorem mainLoop_no_quit (dt : α) :
    ∀ (pre : List (List SDL_EventType)) (planets : List (Planet α)),
      (∀ q ∈ pre, SDL_EventType.SDL_QUIT ∉ q) →
      ∀ rest : List (List SDL_EventType),
        mainLoop dt (pre ++ rest) { planets := planets, running := true }
          = mainLoop dt rest
              { planets := (simulationStep dt)^[pre.length] planets, running := true }
  | [], _, _, _ => rfl
  | q :: pre, planets, h, rest => by
    have hq : SDL_EventType.SDL_QUIT ∉ q := h q (List.mem_cons_self _ _)
    have hpre : ∀ r ∈ pre, SDL_EventType.SDL_QUIT ∉ r :=
      fun r hr => h r (List.mem_cons_of_mem _ hr)
    simp only [List.cons_append, mainLoop, if_true, tick, pollEvents_of_not_mem q true hq,
      List.length_cons, Function.iterate_succ_apply]
    exact mainLoop_no_quit dt pre (simulationStep dt planets) hpre rest

/-- C9, amended: when the polls of the first ticks see no quit event and the poll of the
next tick sees one, that tick still runs its simulation step, and the loop is left at the
next test of `running`, whatever events are queued afterwards: the collection at loop exit
is one simulation step past the collection the loop held when the signal was observed. -/
theorem mainLoop_quit (dt : α) (planets : List (Planet α))
    (pre : List (List SDL_EventType)) (events : List SDL_EventType)
    (post : List (List SDL_EventType))
    (hpre : ∀ q ∈ pre, SDL_EventType.SDL_QUIT ∉ q)
    (hquit : SDL_EventType.SDL_QUIT ∈ events) :
    mainLoop dt pre { planets := planets, running := true }
      = { planets := (simulationStep dt)^[pre.length] planets, running := true } ∧
    mainLoop dt (pre ++ events :: post) { planets := planets, running := true }
      = { planets := simulationStep dt ((simulationStep dt)^[pre.length] planets),
          running := false } := by
  constructor
  · have h := mainLoop_no_quit dt pre planets hpre []
    rw [List.append_nil] at h
    rw [h]
    rfl
  · rw [mainLoop_no_quit dt pre planets hpre (events :: post)]
    simp only [mainLoop, if_true, tick, pollEvents_of_mem events true hquit]
    cases post <;> simp [mainLoop]

end Loop

/-! ## A lone body -/

section Lone

set_option linter.unusedSectionVars false

variable {α : Type} [Zero α] [One α] [Add α] [Sub α] [Mul α] [Div α] [HasSqrt α] [OfScientific α]

theorem netForce_singleton (b : Planet α) : netForce [b] 0 b = ⟨0, 0⟩ := by
  simp [netForce, List.enum]

theorem simulationStep_singleton (dt : α) (b : Planet α)
    (hmass : (0 : α) * (1 / b.mass) = 0) (hdt : (0 : α) * dt = 0)
    (hvx : b.velocity.x + 0 = b.velocity.x) (hvy : b.velocity.y + 0 = b.velocity.y) :
    simulationStep dt [b] = [{ b with position := b.position + b.velocity * dt }] := by
  have hn : netForceSpec [b] 0 b = ⟨0, 0⟩ := by
    rw [← netForce_eq_spec]
    exact netForce_singleton b
  have hv : velocitySpec dt [b] 0 b = b.velocity := by
    unfold velocitySpec
    rw [hn]
    ext
    · show b.velocity.x + (0 * (1 / b.mass)) * dt = b.velocity.x
      rw [hmass, hdt, hvx]
    · show b.velocity.y + (0 * (1 / b.mass)) * dt = b.velocity.y
      rw [hmass, hdt, hvy]
  rw [simulationStep_eq]
  simp only [List.mapIdx_cons, List.mapIdx_nil, withVelocitySpec, hv, Planet.updatePosition]

theorem iterate_simulationStep_singleton (dt : α) (b : Planet α)
    (hmass : (0 : α) * (1 / b.mass) = 0) (hdt : (0 : α) * dt = 0)
    (hvx : b.velocity.x + 0 = b.velocity.x) (hvy : b.velocity.y + 0 = b.velocity.y) :
    ∀ n : ℕ, (simulationStep dt)^[n] [b]
      = [{ b with position := (fun p => p + b.velocity * dt)^[n] b.position }]
  | 0 => rfl
  | n + 1 => by
    rw [Function.iterate_succ_apply', iterate_simulationStep_singleton dt b hmass hdt hvx hvy n,
      Function.iterate_succ_apply']
    exact simulationStep_singleton dt
      { b with position := (fun p => p + b.velocity * dt)^[n] b.position } hmass hdt hvx hvy

theorem iterate_add_real (p v : Vector2 ℝ) (dt : ℝ) :
    ∀ n : ℕ, (fun q => q + v * dt)^[n] p = p + v * ((n : ℝ) * dt)
  | 0 => by
    ext <;> simp
  | n + 1 => by
    rw [Function.iterate_succ_apply', iterate_add_real p v dt n]
    ext <;> simp <;> ring

/-- C6, amended: for a collection of one body and every `dt`, one simulation step
accumulates the zero net force, whatever the arithmetic. When `0 * (1 / mass) = 0`,
`0 * dt = 0` and `velocity + 0 = velocity` hold in the arithmetic (on doubles they hold
for the Earth of `main` with `dt = 1.0`, and fail when `1 / mass` overflows), the step
leaves the velocity as it was and moves the position to `position + velocity * dt`, and
after `n` steps the position is the initial one with `velocity * dt` added `n` times. Over
real-number arithmetic, for positive mass, that is the initial position plus
`velocity * (n * dt)`. -/
theorem simulationStep_lone_body (dt : α) (b : Planet α) (n : ℕ) :
    netForce [b] 0 b = ⟨0, 0⟩ ∧
    ((0 : α) * (1 / b.mass) = 0 → (0 : α) * dt = 0 →
      b.velocity.x + 0 = b.velocity.x → b.velocity.y + 0 = b.velocity.y →
        simulationStep dt [b] = [{ b with position := b.position + b.velocity * dt }] ∧
        (simulationStep dt)^[n] [b]
          = [{ b with position := (fun p => p + b.velocity * dt)^[n] b.position }]) ∧
    ∀ (dtR : ℝ) (bR : Planet ℝ), 0 < bR.mass →
      (simulationStep dtR)^[n] [bR]
        = [{ bR with position := bR.position + bR.velocity * ((n : ℝ) * dtR) }] := by
  refine ⟨netForce_singleton b, ?_, ?_⟩
  · intro hmass hdt hvx hvy
    exact ⟨simulationStep_singleton dt b hmass hdt hvx hvy,
      iterate_simulationStep_singleton dt b hmass hdt hvx hvy n⟩
  · intro dtR bR _
    rw [iterate_simulationStep_singleton dtR bR (by simp) (by simp) (by simp) (by simp) n,
      iterate_add_real]

end Lone

/-! ## The first tick of the reference configuration -/

section ReferenceTick

theorem Vector2.magnitude_axis (a : ℝ) : (⟨a, 0⟩ : Vector2 ℝ).magnitude = |a| := by
  rw [Vector2.magnitude_def]
  simp [Real.sqrt_mul_self_eq_abs]

theorem calculateGravitationalForce_sun_earth :
    calculateGravitationalForce (sun : Planet ℝ) earth
      = ⟨19819847771100000000000000000000000000000, 0⟩ := by
  have hd : (earth : Planet ℝ).position - (sun : Planet ℝ).position = ⟨200, 0⟩ := by
    ext
    · simp [sun, earth]; norm_num
    · simp [sun, earth]
  rw [calculateGravitationalForce_def, hd]
  simp only [Vector2.normalize, Vector2.magnitude_axis]
  ext
  · simp [G, sun, earth]; norm_num
  · simp [G, sun, earth]

theorem calculateGravitationalForce_sun_mars :
    calculateGravitationalForce (sun : Planet ℝ) mars
      = ⟨942537971700000000000000000000000000000, 0⟩ := by
  have hd : (mars : Planet ℝ).position - (sun : Planet ℝ).position = ⟨300, 0⟩ := by
    ext
    · simp [sun, mars]; norm_num
    · simp [sun, mars]
  rw [calculateGravitationalForce_def, hd]
  simp only [Vector2.normalize, Vector2.magnitude_axis]
  ext
  · simp [G, sun, mars]; norm_num
  · simp [G, sun, mars]

theorem calculateGravitationalForce_earth_sun :
    calculateGravitationalForce (earth : Planet ℝ) sun
      = ⟨-19819847771100000000000000000000000000000, 0⟩ := by
  have hd : (sun : Planet ℝ).position - (earth : Planet ℝ).position = ⟨-200, 0⟩ := by
    ext
    · simp [sun, earth]; norm_num
    · simp [sun, earth]
  rw [calculateGravitationalForce_def, hd]
  simp only [Vector2.normalize, Vector2.magnitude_axis]
  ext
  · simp [G, sun, earth]; norm_num
  · simp [G, sun, earth]

theorem calculateGravitationalForce_earth_mars :
    calculateGravitationalForce (earth : Planet ℝ) mars
      = ⟨25469849624400000000000000000000000, 0⟩ := by
  have hd : (mars : Planet ℝ).position - (earth : Planet ℝ).position = ⟨100, 0⟩ := by
    ext
    · simp [mars, earth]; norm_num
    · simp [mars, earth]
  rw [calculateGravitationalForce_def, hd]
  simp only [Vector2.normalize, Vector2.magnitude_axis]
  ext
  · simp [G, mars, earth]; norm_num
  · simp [G, mars, earth]

theorem calculateGravitationalForce_mars_sun :
    calculateGravitationalForce (mars : Planet ℝ) sun
      = ⟨-942537971700000000000000000000000000000, 0⟩ := by
  have hd : (sun : Planet ℝ).position - (mars : Planet ℝ).position = ⟨-300, 0⟩ := by
    ext
    · simp [sun, mars]; norm_num
    · simp [sun, mars]
  rw [calculateGravitationalForce_def, hd]
  simp only [Vector2.normalize, Vector2.magnitude_axis]
  ext
  · simp [G, sun, mars]; norm_num
  · simp [G, sun, mars]

theorem calculateGravitationalForce_mars_earth :
    calculateGravitationalForce (mars : Planet ℝ) earth
      = ⟨-25469849624400000000000000000000000, 0⟩ := by
  have hd : (earth : Planet ℝ).position - (mars : Planet ℝ).position = ⟨-100, 0⟩ := by
    ext
    · simp [mars, earth]; norm_num
    · simp [mars, earth]
  rw [calculateGravitationalForce_def, hd]
  simp only [Vector2.normalize, Vector2.magnitude_axis]
  ext
  · simp [G, mars, earth]; norm_num
  · simp [G, mars, earth]

/-- The first tick of `main`, evaluated in exact arithmetic. -/
theorem simulationStep_initialPlanets :
    simulationStep (1 : ℝ) initialPlanets = [sunAfterTick, earthAfterTick, marsAfterTick] := by
  rw [simulationStep_eq]
  simp only [initialPlanets, List.mapIdx_cons, List.mapIdx_nil,
    withVelocitySpec, Planet.updatePosition, velocitySpec, netForceSpec, List.enum,
    List.enumFrom_cons, List.enumFrom_nil, List.filter_cons, List.filter_nil]
  simp [calculateGravitationalForce_earth_sun, calculateGravitationalForce_earth_mars,
    calculateGravitationalForce_sun_earth, calculateGravitationalForce_sun_mars,
    calculateGravitationalForce_mars_sun, calculateGravitationalForce_mars_earth,
    sunAfterTick, earthAfterTick, marsAfterTick]
  refine ⟨⟨?_, ?_⟩, ⟨?_, ?_⟩, ⟨?_, ?_⟩⟩ <;> ext <;> simp [sun, earth, mars] <;> norm_num

theorem getElem?_simulationStep_initialPlanets :
    (simulationStep (1 : ℝ) initialPlanets)[1]? = some (earthAfterTick : Planet ℝ) := by
  rw [simulationStep_initialPlanets]
  rfl

theorem sun_position_ne_mars : (sun : Planet ℝ).position ≠ mars.position := by
  intro h
  have hx := congrArg Vector2.x h
  simp only [sun, mars] at hx
  norm_num at hx

theorem earth_position_ne_mars : (earth : Planet ℝ).position ≠ mars.position := by
  intro h
  have hx := congrArg Vector2.x h
  simp only [earth, mars] at hx
  norm_num at hx

theorem earthAfterTick_position_ne :
    (earthAfterTick : Planet ℝ).position
      ≠ (earth : Planet ℝ).position + (earth : Planet ℝ).velocity * (1 : ℝ) := by
  intro h
  have hx := congrArg Vector2.x h
  simp only [earthAfterTick, earth, Vector2.add_x, Vector2.mul_x] at hx
  norm_num at hx

theorem simulationStep_velocity_witness :
    ((simulationStep (1 : ℝ) initialPlanets)[1]?).map Planet.velocity
      = some ((earth : Planet ℝ).velocity
          + ((((initialPlanets : List (Planet ℝ)).enum.filter (fun jp => jp.1 ≠ 1)).map
                (fun jp => calculateGravitationalForce (earth : Planet ℝ) jp.2)).foldl
                  (· + ·) ⟨0, 0⟩
              * (1 / (earth : Planet ℝ).mass)) * (1 : ℝ)) :=
  simulationStep_velocity 1 initialPlanets 1 earth rfl

theorem simulationStep_position_witness :
    (earthAfterTick : Planet ℝ).position
        = (earth : Planet ℝ).position + (earthAfterTick : Planet ℝ).velocity * (1 : ℝ) ∧
    (earthAfterTick : Planet ℝ).position
        ≠ (earth : Planet ℝ).position + (earth : Planet ℝ).velocity * (1 : ℝ) :=
  ⟨simulationStep_position 1 initialPlanets 1 earth earthAfterTick rfl
      getElem?_simulationStep_initialPlanets,
    earthAfterTick_position_ne⟩

theorem simulationStep_totalMomentum_witness :
    totalMomentum (simulationStep (1 : ℝ) initialPlanets)
      = totalMomentum (initialPlanets : List (Planet ℝ)) :=
  simulationStep_totalMomentum 1 initialPlanets
    (by
      intro p hp
      simp only [initialPlanets, List.mem_cons, List.mem_singleton, List.not_mem_nil,
        or_false] at hp
      rcases hp with rfl | rfl | rfl
      · simp only [sun]; norm_num
      · simp only [earth]; norm_num
      · simp only [mars]; norm_num)
    (by
      simp only [initialPlanets, List.pairwise_cons, List.mem_cons, List.mem_singleton,
        List.not_mem_nil, List.Pairwise.nil, and_true, forall_eq_or_imp, forall_eq]
      simp [sun_position_ne_earth, sun_position_ne_mars, earth_position_ne_mars])

/-- C9 as stated fails on `main` itself: with a quit event in the queue of the very first
tick the loop is left after that tick has run its simulation step. The Earth is at
`y = 400` when the signal is observed and at `y = -29600` at loop exit, so the planets at
loop exit are not the planets held when the signal was observed. -/
theorem mainLoop_quit_counterexample :
    (mainLoop (1 : ℝ) [[SDL_EventType.SDL_QUIT]]
        { planets := initialPlanets, running := true }).running = false ∧
    ((mainLoop (1 : ℝ) [] { planets := initialPlanets, running := true }).planets[1]?).map
        (fun p : Planet ℝ => p.position.y) = some (400 : ℝ) ∧
    ((mainLoop (1 : ℝ) [[SDL_EventType.SDL_QUIT]]
        { planets := initialPlanets, running := true }).planets[1]?).map
        (fun p : Planet ℝ => p.position.y) = some (-29600 : ℝ) ∧
    (mainLoop (1 : ℝ) [[SDL_EventType.SDL_QUIT]]
        { planets := initialPlanets, running := true }).planets
      ≠ (mainLoop (1 : ℝ) [] { planets := initialPlanets, running := true }).planets := by
  have hexit : (mainLoop (1 : ℝ) [[SDL_EventType.SDL_QUIT]]
        { planets := initialPlanets, running := true }).planets
        = [sunAfterTick, earthAfterTick, marsAfterTick] := by
    simp only [mainLoop, if_true, tick]
    exact simulationStep_initialPlanets
  have hobs : (mainLoop (1 : ℝ) [] { planets := initialPlanets, running := true }).planets
      = [sun, earth, mars] := rfl
  have hy0 : ((mainLoop (1 : ℝ) [] { planets := initialPlanets, running := true }).planets[1]?).map
      (fun p : Planet ℝ => p.position.y) = some (400 : ℝ) := by
    rw [hobs]
    rfl
  have hy1 : ((mainLoop (1 : ℝ) [[SDL_EventType.SDL_QUIT]]
        { planets := initialPlanets, running := true }).planets[1]?).map
        (fun p : Planet ℝ => p.position.y) = some (-29600 : ℝ) := by
    rw [hexit]
    rfl
  refine ⟨rfl, hy0, hy1, ?_⟩
  intro h
  rw [h, hy0] at hy1
  have hy := Option.some.inj hy1
  norm_num at hy

theorem mainLoop_quit_witness :
    mainLoop (1 : ℝ) [[SDL_EventType.other]] { planets := initialPlanets, running := true }
      = { planets := (simulationStep (1 : ℝ))^[1] initialPlanets, running := true } ∧
    mainLoop (1 : ℝ)
        ([[SDL_EventType.other]] ++ [SDL_EventType.other, SDL_EventType.SDL_QUIT] :: [[]])
        { planets := initialPlanets, running := true }
      = { planets := simulationStep (1 : ℝ) ((simulationStep (1 : ℝ))^[1] initialPlanets),
          running := false } :=
  mainLoop_quit 1 initialPlanets [[SDL_EventType.other]]
    [SDL_EventType.other, SDL_EventType.SDL_QUIT] [[]] (by decide) (by decide)

end ReferenceTick

/-! ## The program on doubles -/

section Doubles

namespace F64

theorem bitLength_lower : ∀ (fuel m : Nat), 0 < m → 2 ^ (bitLength fuel m - 1) ≤ m
  | 0, m, h => by simpa [bitLength] using h
  | fuel + 1, m, h => by
    have hm : m ≠ 0 := Nat.pos_iff_ne_zero.mp h
    simp only [bitLength, hm, if_false, Nat.add_sub_cancel]
    by_cases h2 : m / 2 = 0
    · have hb : bitLength fuel (m / 2) = 0 := by
        rw [h2]
        cases fuel <;> simp [bitLength]
      rw [hb]
      simpa using h
    · have ih := bitLength_lower fuel (m / 2) (Nat.pos_of_ne_zero h2)
      have h3 : 2 ^ (bitLength fuel (m / 2)) ≤ 2 * 2 ^ (bitLength fuel (m / 2) - 1) := by
        cases hb : bitLength fuel (m / 2) with
        | zero => simp
        | succ b => simp [pow_succ, Nat.mul_comm]
      omega

theorem bitLength_upper : ∀ (fuel m : Nat), m < 2 ^ fuel → m < 2 ^ bitLength fuel m
  | 0, m, h => by simpa [bitLength] using h
  | fuel + 1, m, h => by
    by_cases hm : m = 0
    · simp [bitLength, hm]
    · simp only [bitLength, hm, if_false]
      have h2 : m / 2 < 2 ^ fuel := by
        rw [pow_succ] at h
        omega
      have ih := bitLength_upper fuel (m / 2) h2
      rw [pow_succ]
      omega

theorem bitLength_eq (fuel m len : Nat) (hlen : len ≤ fuel) (h1 : 2 ^ (len - 1) ≤ m)
    (h2 : m < 2 ^ len) (h0 : 0 < m) : bitLength fuel m = len := by
  have hl := bitLength_lower fuel m h0
  have hu := bitLength_upper fuel m
    (lt_of_lt_of_le h2 (Nat.pow_le_pow_right Nat.two_pos hlen))
  have a1 : 2 ^ (bitLength fuel m - 1) < 2 ^ len := lt_of_le_of_lt hl h2
  have a2 : 2 ^ (len - 1) < 2 ^ bitLength fuel m := lt_of_le_of_lt h1 hu
  have b1 := (Nat.pow_lt_pow_iff_right (by decide : 1 < 2)).mp a1
  have b2 := (Nat.pow_lt_pow_iff_right (by decide : 1 < 2)).mp a2
  omega

/-- Rounding is exact on the product of `2 ^ 52` and a normal significand. -/
theorem round_of_normal (s : Bool) (mk : Nat) (ek : Int)
    (h1 : 4503599627370496 ≤ mk) (h2 : mk < 9007199254740992)
    (he : -1074 ≤ ek) (he2 : ek ≤ 971) :
    round s (4503599627370496 * mk) (-52 + ek) false = pack s mk ek := by
  have hm0 : 4503599627370496 * mk ≠ 0 := by omega
  have hlen : bitLength 4096 (4503599627370496 * mk) = 105 := by
    apply bitLength_eq _ _ 105 (by decide) _ _ (by omega)
    · norm_num
      omega
    · norm_num
      omega
  unfold round
  rw [if_neg hm0]
  simp only [hlen]
  have e1 : max (-52 + ek + ((105 : ℕ) : ℤ) - 53) (-1074) = ek := by
    rw [max_eq_left] <;> push_cast <;> omega
  rw [e1]
  have u : (-52 + ek - ek).toNat = 0 := by omega
  have d : (ek - (-52 + ek)).toNat = 52 := by omega
  rw [u, d]
  have hq : 4503599627370496 * mk * 2 ^ 0 / 2 ^ 52 = mk := by
    norm_num
  have hr : 4503599627370496 * mk * 2 ^ 0 % 2 ^ 52 = 0 := by
    norm_num
  rw [hq, hr]
  have hne : mk ≠ 9007199254740992 := by omega
  have hov : ¬ (971 < ek) := by omega
  simp [hne, hov]

/-- Rounding is exact on the product of `2 ^ 52` and a subnormal significand. -/
theorem round_of_subnormal (s : Bool) (mk : Nat) (h2 : mk < 4503599627370496) :
    round s (4503599627370496 * mk) (-52 + -1074) false = pack s mk (-1074) := by
  by_cases hmk : mk = 0
  · subst hmk
    simp [round, pack, zero]
  have hm0 : 4503599627370496 * mk ≠ 0 := by omega
  have hlen : bitLength 4096 (4503599627370496 * mk) ≤ 104 := by
    have hl := bitLength_lower 4096 (4503599627370496 * mk) (by omega)
    have hlt : 2 ^ (bitLength 4096 (4503599627370496 * mk) - 1) < 2 ^ 104 := by
      apply lt_of_le_of_lt hl
      norm_num
      omega
    have := (Nat.pow_lt_pow_iff_right (by decide : 1 < 2)).mp hlt
    omega
  unfold round
  rw [if_neg hm0]
  have e1 : max (-52 + -1074 + ((bitLength 4096 (4503599627370496 * mk) : ℕ) : ℤ) - 53) (-1074)
      = -1074 := by
    rw [max_eq_right]
    omega
  simp only [e1]
  have u : (-52 + -1074 - (-1074 : ℤ)).toNat = 0 := by decide
  have d : ((-1074 : ℤ) - (-52 + -1074)).toNat = 52 := by decide
  rw [u, d]
  have hq : 4503599627370496 * mk * 2 ^ 0 / 2 ^ 52 = mk := by
    norm_num
  have hr : 4503599627370496 * mk * 2 ^ 0 % 2 ^ 52 = 0 := by
    norm_num
  rw [hq, hr]
  have hne : mk ≠ 9007199254740992 := by omega
  simp [hne]

/-- A finite value is the packing of its sign, significand and exponent. -/
theorem pack_mant_exp (k : F64) (h : k.exponent.val ≠ 2047) :
    pack k.sign k.mant k.exp = k := by
  obtain ⟨s, ⟨E, hE⟩, ⟨f, hf⟩⟩ := k
  simp only at h
  by_cases h0 : E = 0
  · subst h0
    simp [pack, mant, exp, hf, Nat.mod_eq_of_lt hf]
  · have hlt : ¬ (4503599627370496 + f < 4503599627370496) := by omega
    have hE2 : ((E : ℤ) - 1075 + 1075).toNat % 2048 = E := by omega
    simp [pack, mant, exp, h0, hlt, hE2, Nat.mod_eq_of_lt hf]
    exact hE

/-- On doubles `1.0 * k` is `k` for every `k` that is not a NaN. -/
theorem one_mul (k : F64) (h : k.isNaN = false) : (1 : F64) * k = k := by
  show mul ⟨false, 1023, 0⟩ k = k
  have hone1 : isNaN ⟨false, 1023, 0⟩ = false := by decide
  have hone2 : isInf ⟨false, 1023, 0⟩ = false := by decide
  have hone3 : isZero ⟨false, 1023, 0⟩ = false := by decide
  have hone4 : mant ⟨false, 1023, 0⟩ = 4503599627370496 := by decide
  have hone5 : exp ⟨false, 1023, 0⟩ = -52 := by decide
  unfold mul
  simp only [hone1, hone2, hone3, hone4, hone5, h, Bool.or_self, Bool.false_or,
    Bool.false_eq_true, if_false, Bool.false_bne]
  by_cases hinf : k.isInf = true
  · obtain ⟨s, ⟨E, hE⟩, ⟨f, hf⟩⟩ := k
    simp only [isInf, Bool.and_eq_true, beq_iff_eq] at hinf
    obtain ⟨h1, h2⟩ := hinf
    subst h1
    subst h2
    simp [isInf, isZero, inf]
  · have hE : k.exponent.val ≠ 2047 := by
      intro hE
      obtain ⟨s, ⟨E, hE1⟩, ⟨f, hf⟩⟩ := k
      simp only at hE
      subst hE
      simp only [isNaN, isInf, beq_self_eq_true, Bool.true_and, bne_iff_ne, ne_eq,
        decide_eq_false_iff_not, not_not, beq_iff_eq] at h hinf
      simp at h
      exact hinf h
    simp only [hinf, if_false]
    have hp := pack_mant_exp k hE
    by_cases h0 : k.exponent.val = 0
    · have hm : k.mant = k.fraction.val := by simp [mant, h0]
      have he : k.exp = -1074 := by simp [exp, h0]
      rw [hm, he] at hp ⊢
      rw [round_of_subnormal _ _ k.fraction.isLt]
      exact hp
    · have hm1 : 4503599627370496 ≤ k.mant := by simp [mant, h0]
      have hm2 : k.mant < 9007199254740992 := by
        have := k.fraction.isLt
        simp only [mant, h0, if_false]
        omega
      have he1 : -1074 ≤ k.exp := by
        simp only [exp, h0, if_false]
        omega
      have he2 : k.exp ≤ 971 := by
        have := k.exponent.isLt
        simp only [exp, h0, if_false]
        omega
      rw [round_of_normal _ _ _ hm1 hm2 he1 he2]
      exact hp

/-- A double above `0` is not a NaN. -/
theorem isNaN_of_pos (k : F64) (h : 0 < k) : k.isNaN = false := by
  have h1 : lt 0 k = true := h
  unfold lt at h1
  by_cases hn : k.isNaN = true
  · simp [hn] at h1
  · simpa using hn

end F64

/-- C6 as stated fails on doubles. A lone body of positive mass `1e-310` has
`1.0 / mass` infinite, and one step makes its velocity and position NaN. A lone body
of mass `1` with velocity `(0.1, 0)` is at `x = 9007199254740991 * 2 ^ (-53)` after ten
steps of `dt = 1`, not at `0 + 0.1 * (10 * 1) = 1`. -/
theorem simulationStep_lone_body_counterexample :
    (0 : F64) < ({ (bodyAt 0 0 1e-310 : Planet F64) with velocity := ⟨1, 0⟩ } : Planet F64).mass ∧
    (simulationStep (1 : F64)
        [{ (bodyAt 0 0 1e-310 : Planet F64) with velocity := ⟨1, 0⟩ }]).map
      (fun p => (p.velocity.x.isNaN, p.position.x.isNaN)) = [(true, true)] ∧
    ((simulationStep (1 : F64))^[10]
        [{ (bodyAt 0 0 1 : Planet F64) with velocity := ⟨0.1, 0⟩ }]).map
      (fun p => p.position.x) = [F64.pack false 9007199254740991 (-53)] ∧
    ((bodyAt 0 0 1 : Planet F64).position
        + (⟨0.1, 0⟩ : Vector2 F64) * (((10 : ℕ) : F64) * 1)).x = 1 ∧
    F64.pack false 9007199254740991 (-53) ≠ 1 := by
  refine ⟨?_, ?_, ?_, ?_, ?_⟩ <;> decide!

theorem simulationStep_lone_body_witness :
    netForce [(earth : Planet F64)] 0 earth = ⟨0, 0⟩ ∧
    simulationStep (1 : F64) [earth]
      = [{ (earth : Planet F64) with
            position := (earth : Planet F64).position
              + (earth : Planet F64).velocity * (1 : F64) }] ∧
    (simulationStep (1 : F64))^[3] [earth]
      = [{ (earth : Planet F64) with
            position := (fun p => p + (earth : Planet F64).velocity * (1 : F64))^[3]
              (earth : Planet F64).position }] ∧
    (simulationStep (1 : ℝ))^[3] [earth]
      = [{ (earth : Planet ℝ) with
            position := (earth : Planet ℝ).position
              + (earth : Planet ℝ).velocity * (((3 : ℕ) : ℝ) * 1) }] :=
  have h := simulationStep_lone_body (1 : F64) earth 3
  have h2 := h.2.1 (by decide!) (by decide!) (by decide!) (by decide!)
  ⟨h.1, h2.1, h2.2, h.2.2 1 earth (by simp only [earth]; norm_num)⟩

end Doubles


end GravitationalDance
